import Mathlib

/-!
Verification of the `clap-mangen-example` CLI program.

The data model mirrors `src/cli.rs` (the derive-based grammar declaration)
and the dispatcher mirrors the `match` in `src/src/main.rs`.  The argument
parsing engine itself is the external `clap` library, which is not part of
the repository's sources; its behaviour on the grammar declared in
`src/cli.rs` is modelled from the specification's contract for it
(defaults, value enumerations, count flags, 16-bit port range, grammar
violations terminating with a non-zero exit and no dispatch output).

Machine integers are modelled as `Nat` with explicit bounds: `port` is a
`u16` in the source, so parsing enforces `port ≤ 65535`; `verbose` is a
`u8` count, so it accumulates with saturation at `255`.
-/

/-- Output format for config get (`OutputFormat` in `src/cli.rs`). -/
inductive OutputFormat where
  | Plain
  | Json
deriving Repr, DecidableEq

/-- Rust `{:?}` (derived `Debug`) representation of an `OutputFormat` value:
the bare variant name. -/
def OutputFormat.debugRepr : OutputFormat → String
  | .Plain => "Plain"
  | .Json => "Json"

/-- Arguments for `config get` (`ConfigGet` in `src/cli.rs`).
The `format` flag defaults to `OutputFormat.Plain`. -/
structure ConfigGet where
  key : String
  format : OutputFormat := OutputFormat.Plain
deriving Repr, DecidableEq

/-- Arguments for `config set` (`ConfigSet` in `src/cli.rs`). -/
structure ConfigSet where
  key : String
  value : String
  global : Bool := false
deriving Repr, DecidableEq

/-- Second-level subcommands for `config` (`ConfigAction` in `src/cli.rs`). -/
inductive ConfigAction where
  | Get (g : ConfigGet)
  | Set (s : ConfigSet)
deriving Repr, DecidableEq

/-- The `config` command wrapper (`ConfigCmd` in `src/cli.rs`). -/
structure ConfigCmd where
  action : ConfigAction
deriving Repr, DecidableEq

/-- Arguments for the `server` command (`ServerCmd` in `src/cli.rs`).
`port` is a `u16` defaulting to `8080`; `addr` defaults to `"127.0.0.1"`;
`verbose` is a `u8` occurrence count defaulting to `0`. -/
structure ServerCmd where
  port : Nat := 8080
  addr : String := "127.0.0.1"
  verbose : Nat := 0
deriving Repr, DecidableEq

/-- Arguments for the `remote` command (`RemoteCmd` in `src/cli.rs`). -/
structure RemoteCmd where
  name : String
  url : Option String := none
  remove : Bool := false
deriving Repr, DecidableEq

/-- All top-level subcommands (`Commands` in `src/cli.rs`). -/
inductive Commands where
  | Config (c : ConfigCmd)
  | Server (s : ServerCmd)
  | Remote (r : RemoteCmd)
deriving Repr, DecidableEq

/-- Top-level CLI value (`Cli` in `src/cli.rs`). -/
structure Cli where
  command : Commands
deriving Repr, DecidableEq

/-- The dispatcher: the `match opts.command` in `src/src/main.rs`, returning
the single line each arm passes to `println!`. -/
def dispatch : Commands → String
  | .Server s =>
      "server start on " ++ s.addr ++ ":" ++ Nat.repr s.port ++
        " (verbosity: " ++ Nat.repr s.verbose ++ ")"
  | .Remote r =>
      if r.remove then
        "remote removed: " ++ r.name
      else
        match r.url with
        | some url => "remote added: " ++ r.name ++ " -> " ++ url
        | none => "remote info requested: " ++ r.name
  | .Config cfg =>
      match cfg.action with
      | .Get g => "config get " ++ g.key ++ " (format: " ++ g.format.debugRepr ++ ")"
      | .Set s =>
          "config set " ++ s.key ++ "=" ++ s.value ++
            " (global: " ++ (if s.global then "true" else "false") ++ ")"

/-- The single error kind of the program: a grammar violation detected by the
parsing engine (spec section 7). The constructors refine the spec's list
"unknown command, missing required argument, malformed/out-of-range value". -/
inductive ParseError where
  | missingCommand
  | unknownCommand
  | unknownFlag
  | missingValue
  | missingArg
  | unexpectedArg
  | invalidValue
deriving Repr, DecidableEq

/-- Result of handing an argument list to the parsing engine: a typed value,
an engine-handled informational exit (`--help`/`--version`, exit code 0), or
a grammar violation (usage text on stderr, non-zero exit). -/
inductive PResult (α : Type) where
  | ok (a : α)
  | info
  | err (e : ParseError)
deriving Repr, DecidableEq

/-- A token is a long flag: it starts with `--` (and is not bare `-`). -/
def isLong (t : String) : Bool :=
  match t.data with
  | '-' :: '-' :: _ => true
  | _ => false

/-- A token is a short-flag cluster: it starts with a single `-` followed by
at least one character other than `-`. -/
def isShort (t : String) : Bool :=
  match t.data with
  | '-' :: '-' :: _ => false
  | '-' :: _ :: _ => true
  | _ => false

/-- The engine refuses to consume a separate token that itself looks like a
flag as the value of an option. -/
def flagLike (v : String) : Bool :=
  match v.data with
  | '-' :: _ :: _ => true
  | _ => false

/-- Split the body of a long flag at the first `=`, yielding the flag name
and the optional inline value (`--port=90` gives `("port", some "90")`). -/
def splitOnEq : List Char → List Char × Option (List Char)
  | [] => ([], none)
  | '=' :: cs => ([], some cs)
  | c :: cs =>
      let r := splitOnEq cs
      (c :: r.1, r.2)

/-- Decimal digit test on the character's code point. -/
def isDigitCh (c : Char) : Bool :=
  48 ≤ c.toNat && c.toNat ≤ 57

/-- Accumulate a decimal number over a character list; any non-digit makes
the whole value malformed. -/
def parseNatGo : List Char → Nat → Option Nat
  | [], acc => some acc
  | c :: cs, acc =>
      if isDigitCh c then parseNatGo cs (acc * 10 + (c.toNat - 48)) else none

/-- Parse a non-empty all-digit character list as a natural number. -/
def parseNatAll : List Char → Option Nat
  | [] => none
  | cs => parseNatGo cs 0

/-- Parse a `u16` value: a decimal number that fits 16 unsigned bits.
A value outside the range is a parse failure, never a runtime value. -/
def parseU16 (v : String) : Option Nat :=
  match parseNatAll v.data with
  | some n => if n ≤ 65535 then some n else none
  | none => none

/-- Saturating increment of the `u8` occurrence counter behind
`clap::ArgAction::Count` (the engine stores the count in a `u8`). -/
def satInc (n : Nat) : Nat :=
  min (n + 1) 255

/-- Outcome of scanning one short-flag cluster of the `server` command:
either an updated state (with a flag telling whether a `-p` at the end of
the cluster still needs the next token as its value), or an engine-handled
help exit, or a grammar violation. -/
inductive ClusterOut where
  | done (s : ServerCmd) (needPort : Bool)
  | info
  | err (e : ParseError)
deriving Repr, DecidableEq

/-- Modelled from the spec: the engine's scan of a short-flag cluster for
the `server` command.  `v` occurrences accumulate into the count; `p`
consumes the remainder of the cluster as an inline port value, or, when it
ends the cluster, requests the next token as the value; `h` is help; any
other letter is an unknown flag. -/
def parseCluster : List Char → ServerCmd → ClusterOut
  | [], s => .done s false
  | c :: cs, s =>
    if c = 'v' then parseCluster cs { s with verbose := satInc s.verbose }
    else if c = 'h' then .info
    else if c = 'p' then
      if cs.isEmpty then .done s true
      else
        match parseU16 (String.mk cs) with
        | some p => .done { s with port := p } false
        | none => .err .invalidValue
    else .err .unknownFlag

/-- Outcome of the engine's handling of one leading token of the `server`
argument list: terminate the parse with a result, continue with the rest of
the tokens, or continue after additionally consuming the next token as the
value of a `--port`, `--addr` or trailing `-p` option. -/
inductive StepOut where
  | final (r : PResult ServerCmd)
  | contKeep (s2 : ServerCmd)
  | contSkip (s2 : ServerCmd)
deriving Repr, DecidableEq

/-- Modelled from the spec: the engine's handling of one leading token of
the `server` argument list against the grammar of `ServerCmd` in
`src/cli.rs`: `-p`/`--port <u16>` (default 8080), `--addr <string>`
(default `127.0.0.1`), `-v`/`--verbose` counted occurrences, `--help`/`-h`,
and no positionals. -/
def serverStep (t : String) (rest : List String) (s : ServerCmd) : StepOut :=
  if isLong t then
    if (splitOnEq (t.data.drop 2)).1 = "port".data then
      match (splitOnEq (t.data.drop 2)).2 with
      | some v =>
          match parseU16 (String.mk v) with
          | some p => .contKeep { s with port := p }
          | none => .final (.err .invalidValue)
      | none =>
          match rest with
          | v :: _ =>
              if flagLike v then .final (.err .missingValue)
              else
                match parseU16 v with
                | some p => .contSkip { s with port := p }
                | none => .final (.err .invalidValue)
          | [] => .final (.err .missingValue)
    else if (splitOnEq (t.data.drop 2)).1 = "addr".data then
      match (splitOnEq (t.data.drop 2)).2 with
      | some v => .contKeep { s with addr := String.mk v }
      | none =>
          match rest with
          | v :: _ =>
              if flagLike v then .final (.err .missingValue)
              else .contSkip { s with addr := v }
          | [] => .final (.err .missingValue)
    else if (splitOnEq (t.data.drop 2)).1 = "verbose".data then
      match (splitOnEq (t.data.drop 2)).2 with
      | some _ => .final (.err .invalidValue)
      | none => .contKeep { s with verbose := satInc s.verbose }
    else if (splitOnEq (t.data.drop 2)).1 = "help".data then .final .info
    else .final (.err .unknownFlag)
  else if isShort t then
    match parseCluster (t.data.drop 1) s with
    | .err e => .final (.err e)
    | .info => .final .info
    | .done s2 true =>
        match rest with
        | v :: _ =>
            if flagLike v then .final (.err .missingValue)
            else
              match parseU16 v with
              | some p => .contSkip { s2 with port := p }
              | none => .final (.err .invalidValue)
        | [] => .final (.err .missingValue)
    | .done s2 false => .contKeep s2
  else .final (.err .unexpectedArg)

/-- Modelled from the spec: the engine's parse of the arguments of the
`server` command, folding `serverStep` over the token list.  The inner
`[]` arm of the `contSkip` case is unreachable: `serverStep` only asks to
skip a token when `rest` is non-empty. -/
def parseServerArgs : List String → ServerCmd → PResult ServerCmd
  | [], s => .ok s
  | t :: rest, s =>
    match serverStep t rest s with
    | .final r => r
    | .contKeep s2 => parseServerArgs rest s2
    | .contSkip s2 =>
        match rest with
        | _ :: rest2 => parseServerArgs rest2 s2
        | [] => .err .missingValue

/-- Modelled from the spec: the `format` value enumeration of `config get`
accepts only the literal values `plain` and `json`. -/
def parseFormat (v : String) : Option OutputFormat :=
  if v = "plain" then some OutputFormat.Plain
  else if v = "json" then some OutputFormat.Json
  else none

/-- Modelled from the spec: the engine's parse of the arguments of
`config get` against the grammar of `ConfigGet` in `src/cli.rs`: one
required positional `KEY` and the long flag `--format plain|json`
defaulting to `plain`. -/
def parseConfigGetArgs : List String → Option String → OutputFormat → PResult ConfigGet
  | [], keyAcc, fmt =>
      match keyAcc with
      | some k => .ok { key := k, format := fmt }
      | none => .err .missingArg
  | t :: rest, keyAcc, fmt =>
    if isLong t then
      if (splitOnEq (t.data.drop 2)).1 = "format".data then
        match (splitOnEq (t.data.drop 2)).2 with
        | some v =>
            match parseFormat (String.mk v) with
            | some f => parseConfigGetArgs rest keyAcc f
            | none => .err .invalidValue
        | none =>
            match rest with
            | v :: rest2 =>
                if flagLike v then .err .missingValue
                else
                  match parseFormat v with
                  | some f => parseConfigGetArgs rest2 keyAcc f
                  | none => .err .invalidValue
            | [] => .err .missingValue
      else if (splitOnEq (t.data.drop 2)).1 = "help".data then .info
      else .err .unknownFlag
    else if isShort t then
      if t.data.drop 1 = ['h'] then .info else .err .unknownFlag
    else
      match keyAcc with
      | none => parseConfigGetArgs rest (some t) fmt
      | some _ => .err .unexpectedArg

/-- Modelled from the spec: the engine's parse of the arguments of
`config set` against the grammar of `ConfigSet` in `src/cli.rs`: required
positionals `KEY` and `VALUE` and the presence flag `--global`. -/
def parseConfigSetArgs : List String → Option String → Option String → Bool → PResult ConfigSet
  | [], keyAcc, valAcc, glob =>
      match keyAcc, valAcc with
      | some k, some v => .ok { key := k, value := v, global := glob }
      | _, _ => .err .missingArg
  | t :: rest, keyAcc, valAcc, glob =>
    if isLong t then
      if (splitOnEq (t.data.drop 2)).1 = "global".data then
        match (splitOnEq (t.data.drop 2)).2 with
        | some _ => .err .invalidValue
        | none => parseConfigSetArgs rest keyAcc valAcc true
      else if (splitOnEq (t.data.drop 2)).1 = "help".data then .info
      else .err .unknownFlag
    else if isShort t then
      if t.data.drop 1 = ['h'] then .info else .err .unknownFlag
    else
      match keyAcc with
      | none => parseConfigSetArgs rest (some t) valAcc glob
      | some _ =>
          match valAcc with
          | none => parseConfigSetArgs rest keyAcc (some t) glob
          | some _ => .err .unexpectedArg

/-- Modelled from the spec: the engine's parse of the `config` command's
required nested subcommand (`get` or `set`). -/
def parseConfig : List String → PResult ConfigAction
  | [] => .err .missingCommand
  | t :: rest =>
    if t = "get" then
      match parseConfigGetArgs rest none OutputFormat.Plain with
      | .ok g => .ok (.Get g)
      | .info => .info
      | .err e => .err e
    else if t = "set" then
      match parseConfigSetArgs rest none none false with
      | .ok s => .ok (.Set s)
      | .info => .info
      | .err e => .err e
    else if t = "--help" || t = "-h" then .info
    else .err .unknownCommand

/-- Modelled from the spec: the engine's parse of the arguments of the
`remote` command against the grammar of `RemoteCmd` in `src/cli.rs`: one
required positional `NAME`, the valued long flag `--url`, and the presence
flag `--remove`. -/
def parseRemoteArgs : List String → Option String → Option String → Bool → PResult RemoteCmd
  | [], nameAcc, url, rm =>
      match nameAcc with
      | some n => .ok { name := n, url := url, remove := rm }
      | none => .err .missingArg
  | t :: rest, nameAcc, url, rm =>
    if isLong t then
      if (splitOnEq (t.data.drop 2)).1 = "url".data then
        match (splitOnEq (t.data.drop 2)).2 with
        | some v => parseRemoteArgs rest nameAcc (some (String.mk v)) rm
        | none =>
            match rest with
            | v :: rest2 =>
                if flagLike v then .err .missingValue
                else parseRemoteArgs rest2 nameAcc (some v) rm
            | [] => .err .missingValue
      else if (splitOnEq (t.data.drop 2)).1 = "remove".data then
        match (splitOnEq (t.data.drop 2)).2 with
        | some _ => .err .invalidValue
        | none => parseRemoteArgs rest nameAcc url true
      else if (splitOnEq (t.data.drop 2)).1 = "help".data then .info
      else .err .unknownFlag
    else if isShort t then
      if t.data.drop 1 = ['h'] then .info else .err .unknownFlag
    else
      match nameAcc with
      | none => parseRemoteArgs rest (some t) url rm
      | some _ => .err .unexpectedArg

/-- Modelled from the spec: the parsing engine's entry point, dispatching
the raw argument list (after the program name) on the required top-level
subcommand declared in `Commands` of `src/cli.rs`. -/
def parseArgs : List String → PResult Commands
  | [] => .err .missingCommand
  | t :: rest =>
    if t = "config" then
      match parseConfig rest with
      | .ok a => .ok (.Config { action := a })
      | .info => .info
      | .err e => .err e
    else if t = "server" then
      match parseServerArgs rest {} with
      | .ok s => .ok (.Server s)
      | .info => .info
      | .err e => .err e
    else if t = "remote" then
      match parseRemoteArgs rest none none false with
      | .ok r => .ok (.Remote r)
      | .info => .info
      | .err e => .err e
    else if t = "--help" || t = "-h" || t = "--version" || t = "-V" then .info
    else .err .unknownCommand

/-- One whole process run of `main` in `src/src/main.rs` on an argument
list: the list of lines the program itself writes to standard output (one
`println!` call per element) paired with the process exit code.  A grammar
violation makes the engine terminate the process with exit code 2 and no
dispatch output; the engine-rendered help/version text is not output of the
dispatcher and is not modelled. -/
def run (args : List String) : List String × Nat :=
  match parseArgs args with
  | .ok c => ([dispatch c], 0)
  | .info => ([], 0)
  | .err _ => ([], 2)

/-- Number of `-v` occurrences inside one short-flag cluster that the
engine actually counts: the leading run of `v` characters (a `p` stops the
scan by consuming a value, and any other character ends the cluster's flag
scan). -/
def clusterV : List Char → Nat
  | [] => 0
  | c :: cs => if c = 'v' then clusterV cs + 1 else 0

/-- Whether a short-flag cluster ends in a `-p` that takes the following
token as its value (so that token is not scanned for flags). -/
def clusterNeedsPort : List Char → Bool
  | [] => false
  | c :: cs =>
    if c = 'v' then clusterNeedsPort cs
    else if c = 'p' then cs.isEmpty
    else false

/-- The number of verbosity-flag occurrences a single token carries: one
for the long flag `--verbose`, the counted `v` letters for a short-flag
cluster, and zero for anything else. -/
def vStep (t : String) : Nat :=
  if isLong t then
    if (splitOnEq (t.data.drop 2)).1 = "verbose".data && (splitOnEq (t.data.drop 2)).2.isNone
    then 1
    else 0
  else if isShort t then clusterV (t.data.drop 1)
  else 0

/-- Whether a token makes the engine consume the following token as an
option value (`--port` or `--addr` without an inline `=` value, or a
short-flag cluster ending in `-p`), so that following token is not itself
scanned for verbosity flags. -/
def tSkips (t : String) : Bool :=
  if isLong t then
    ((splitOnEq (t.data.drop 2)).1 = "port".data ||
      (splitOnEq (t.data.drop 2)).1 = "addr".data) &&
      (splitOnEq (t.data.drop 2)).2.isNone
  else if isShort t then clusterNeedsPort (t.data.drop 1)
  else false

/-- The number of occurrences of the verbosity flag (`-v` short, possibly
clustered, or `--verbose` long) in a `server` argument list, skipping the
tokens consumed as values of `--port`, `--addr`, and a value-taking `-p`. -/
def countVerbose : List String → Nat
  | [] => 0
  | [t] => vStep t
  | t :: v :: rest =>
      vStep t + (if tSkips t then countVerbose rest else countVerbose (v :: rest))

lemma parseU16_le {v : String} {p : Nat} (h : parseU16 v = some p) : p ≤ 65535 := by
  unfold parseU16 at h
  cases hn : parseNatAll v.data with
  | none => rw [hn] at h; simp at h
  | some n =>
      rw [hn] at h
      by_cases hle : n ≤ 65535
      · simp [hle] at h; omega
      · simp [hle] at h

lemma satInc_le (n : Nat) : satInc n ≤ 255 := by
  unfold satInc; omega

lemma parseCluster_spec (cs : List Char) :
    ∀ s s' np, s.verbose ≤ 255 → s.port ≤ 65535 →
      parseCluster cs s = .done s' np →
      s'.verbose = min (s.verbose + clusterV cs) 255 ∧
        np = clusterNeedsPort cs ∧ s'.port ≤ 65535 := by
  induction cs with
  | nil =>
      intro s s' np hv hp heq
      simp [parseCluster] at heq
      obtain ⟨rfl, rfl⟩ := heq
      simp [clusterV, clusterNeedsPort]
      omega
  | cons c cs ih =>
      intro s s' np hv hp heq
      by_cases hc : c = 'v'
      · subst hc
        simp [parseCluster] at heq
        have hrec := ih { s with verbose := satInc s.verbose } s' np (satInc_le _) hp heq
        obtain ⟨h1, h2, h3⟩ := hrec
        refine ⟨?_, ?_, h3⟩
        · simp [clusterV]
          simp [satInc] at h1
          omega
        · simp [clusterNeedsPort]
          exact h2
      · by_cases hh : c = 'h'
        · subst hh
          simp [parseCluster, hc] at heq
        · by_cases hpc : c = 'p'
          · subst hpc
            simp [parseCluster, hc, hh] at heq
            rcases cs with _ | ⟨d, ds⟩
            · simp at heq
              obtain ⟨rfl, rfl⟩ := heq
              refine ⟨?_, ?_, hp⟩
              · simp [clusterV, hc]; omega
              · simp [clusterNeedsPort, hc, hh]
            · simp at heq
              cases hu : parseU16 (String.mk (d :: ds)) with
              | none => rw [hu] at heq; simp at heq
              | some p =>
                  rw [hu] at heq
                  simp at heq
                  obtain ⟨rfl, rfl⟩ := heq
                  refine ⟨?_, ?_, parseU16_le hu⟩
                  · simp [clusterV, hc]; omega
                  · simp [clusterNeedsPort, hc, hh]
          · simp [parseCluster, hc, hh, hpc] at heq

/-- Specification of one engine step of the `server` parse: a terminating
step never yields a parsed value, and a continuing step updates the count
by the token's verbosity contribution (saturating at the `u8` bound),
keeps the port within the `u16` bound, and skips the next token exactly
when the token takes it as a value. -/
def stepOk (t : String) (s : ServerCmd) : StepOut → Prop
  | .final r => ∀ x, r ≠ PResult.ok x
  | .contKeep s2 =>
      s2.verbose = min (s.verbose + vStep t) 255 ∧ s2.port ≤ 65535 ∧ tSkips t = false
  | .contSkip s2 =>
      s2.verbose = min (s.verbose + vStep t) 255 ∧ s2.port ≤ 65535 ∧ tSkips t = true

lemma serverStep_spec (t : String) (rest : List String) (s : ServerCmd)
    (hv : s.verbose ≤ 255) (hp : s.port ≤ 65535) :
    stepOk t s (serverStep t rest s) := by
  have hpv : ("port".data : List Char) ≠ "verbose".data := by decide
  have hav : ("addr".data : List Char) ≠ "verbose".data := by decide
  unfold serverStep
  repeat' split
  all_goals
    first
      | (simp_all [stepOk, vStep, tSkips, satInc]; done)
      | (simp_all [stepOk, vStep, tSkips, satInc]; omega)
      | skip
  · rename_i hlong hport x1 v hsv x2 n hu
    refine ⟨?_, parseU16_le hu, ?_⟩
    · simp [vStep, hlong, hport, hsv, hpv]
      omega
    · simp [tSkips, hlong, hport, hsv]
  · rename_i hlong hport x1 hsn rest2 v tl hfl x2 n hu
    refine ⟨?_, parseU16_le hu, ?_⟩
    · simp [vStep, hlong, hport, hsn, hpv]
      omega
    · simp [tSkips, hlong, hport, hsn]
  · rename_i hnl hshort x1 s2 hcl rest2 v tl hfl x2 n hu
    obtain ⟨hc1, hc2, hc3⟩ := parseCluster_spec _ s s2 true hv hp hcl
    rw [List.drop_one] at hc2
    refine ⟨?_, parseU16_le hu, ?_⟩
    · simpa [vStep, hnl, hshort] using hc1
    · simp [tSkips, hnl, hshort, ← hc2]
  · rename_i hnl hshort x1 s2 hcl
    obtain ⟨hc1, hc2, hc3⟩ := parseCluster_spec _ s s2 false hv hp hcl
    rw [List.drop_one] at hc2
    refine ⟨?_, hc3, ?_⟩
    · simpa [vStep, hnl, hshort] using hc1
    · simp [tSkips, hnl, hshort, ← hc2]

lemma countVerbose_noskip (t : String) (rest : List String) (h : tSkips t = false) :
    countVerbose (t :: rest) = vStep t + countVerbose rest := by
  cases rest <;> simp [countVerbose, h]

lemma countVerbose_skip (t v : String) (rest : List String) (h : tSkips t = true) :
    countVerbose (t :: v :: rest) = vStep t + countVerbose rest := by
  simp [countVerbose, h]

lemma parseServerArgs_spec (args : List String) (s : ServerCmd) :
    ∀ s', s.verbose ≤ 255 → s.port ≤ 65535 →
      parseServerArgs args s = .ok s' →
      s'.verbose = min (s.verbose + countVerbose args) 255 ∧ s'.port ≤ 65535 := by
  induction args, s using parseServerArgs.induct with
  | case1 s =>
      intro s' hv hp heq
      simp [parseServerArgs] at heq
      subst heq
      simp [countVerbose]
      omega
  | case2 t rest s r hstep =>
      intro s' hv hp heq
      have hsp := serverStep_spec t rest s hv hp
      rw [hstep] at hsp
      simp only [stepOk] at hsp
      simp [parseServerArgs, hstep] at heq
      exact absurd heq (hsp s')
  | case3 t rest s s2 hstep ih =>
      intro s' hv hp heq
      have hsp := serverStep_spec t rest s hv hp
      rw [hstep] at hsp
      obtain ⟨h1, h2, h3⟩ := hsp
      simp [parseServerArgs, hstep] at heq
      obtain ⟨g1, g2⟩ := ih s' (by omega) h2 heq
      refine ⟨?_, g2⟩
      rw [countVerbose_noskip t rest h3]
      omega
  | case4 t s s2 v tl hstep ih =>
      intro s' hv hp heq
      have hsp := serverStep_spec t (v :: tl) s hv hp
      rw [hstep] at hsp
      obtain ⟨h1, h2, h3⟩ := hsp
      simp [parseServerArgs, hstep] at heq
      obtain ⟨g1, g2⟩ := ih s' (by omega) h2 heq
      refine ⟨?_, g2⟩
      rw [countVerbose_skip t v tl h3]
      omega
  | case5 t s s2 hstep =>
      intro s' hv hp heq
      simp [parseServerArgs, hstep] at heq

lemma serverStep_v (rest : List String) (s : ServerCmd) :
    serverStep "-v" rest s = .contKeep { s with verbose := satInc s.verbose } := by
  have h1 : isLong "-v" = false := by decide
  have h2 : isShort "-v" = true := by decide
  have h3 : List.drop 1 ("-v".data) = ['v'] := by decide
  simp [serverStep, h1, h2, h3, parseCluster]

lemma parseServerArgs_replicate (n : Nat) :
    ∀ s : ServerCmd, s.verbose ≤ 255 →
      parseServerArgs (List.replicate n "-v") s =
        .ok { s with verbose := min (s.verbose + n) 255 } := by
  induction n with
  | zero =>
      intro s hv
      have : min (s.verbose + 0) 255 = s.verbose := by omega
      rw [List.replicate_zero, this]
      rfl
  | succ n ih =>
      intro s hv
      rw [List.replicate_succ]
      have hstep := serverStep_v (List.replicate n "-v") s
      simp only [parseServerArgs, hstep]
      rw [ih { s with verbose := satInc s.verbose } (satInc_le _)]
      have : min (satInc s.verbose + n) 255 = min (s.verbose + (n + 1)) 255 := by
        simp [satInc]; omega
      rw [this]

lemma parseArgs_server_inv (args : List String) (s : ServerCmd)
    (h : parseArgs args = .ok (Commands.Server s)) :
    ∃ rest, args = "server" :: rest ∧ parseServerArgs rest {} = .ok s := by
  cases args with
  | nil => simp [parseArgs] at h
  | cons t rest =>
      by_cases h1 : t = "config"
      · subst h1
        simp only [parseArgs, if_pos rfl] at h
        cases hc : parseConfig rest <;> rw [hc] at h <;> simp at h
      · by_cases h2 : t = "server"
        · subst h2
          simp only [parseArgs] at h
          rw [if_neg h1] at h
          simp only [if_true] at h
          refine ⟨rest, rfl, ?_⟩
          cases hps : parseServerArgs rest {} with
          | ok a =>
              rw [hps] at h
              simp at h
              subst h
              rfl
          | info => rw [hps] at h; simp at h
          | err e => rw [hps] at h; simp at h
        · by_cases h3 : t = "remote"
          · subst h3
            simp only [parseArgs] at h
            rw [if_neg h1, if_neg h2] at h
            simp only [if_true] at h
            cases hr : parseRemoteArgs rest none none false <;> rw [hr] at h <;> simp at h
          · by_cases h4 : t = "--help" || t = "-h" || t = "--version" || t = "-V"
            · simp [parseArgs, h1, h2, h3, h4] at h
            · simp [parseArgs, h1, h2, h3, h4] at h

/-- C1: for every parsed `Remote` command the dispatcher prints exactly one
of three lines, checking `remove` first (so `remove` wins over a present
`url`), then a present `url`, then the bare info line. -/
theorem C1_remote_dispatch_order :
    (∀ (name : String) (url : Option String),
        dispatch (.Remote { name := name, url := url, remove := true }) =
          "remote removed: " ++ name) ∧
    (∀ (name u : String),
        dispatch (.Remote { name := name, url := some u, remove := false }) =
          "remote added: " ++ name ++ " -> " ++ u) ∧
    (∀ name : String,
        dispatch (.Remote { name := name, url := none, remove := false }) =
          "remote info requested: " ++ name) :=
  ⟨fun _ _ => rfl, fun _ _ => rfl, fun _ => rfl⟩

/-- C2: the dispatcher is total — whenever the engine hands `main` a parsed
command, the process writes exactly the one dispatch line to standard
output and exits with code 0. -/
theorem C2_dispatch_total (args : List String) (c : Commands)
    (h : parseArgs args = .ok c) :
    run args = ([dispatch c], 0) ∧ (run args).1.length = 1 := by
  unfold run
  rw [h]
  exact ⟨rfl, rfl⟩

/-- C2 witness at the concrete invocation `server`. -/
theorem C2_dispatch_total_witness :
    run ["server"] =
        ([dispatch (.Server { port := 8080, addr := "127.0.0.1", verbose := 0 })], 0) ∧
      (run ["server"]).1.length = 1 :=
  C2_dispatch_total ["server"]
    (.Server { port := 8080, addr := "127.0.0.1", verbose := 0 }) (by decide)

/-- C3: for every parsed `Server` command the dispatcher prints the single
line with the address, port and verbosity interpolated. -/
theorem C3_server_line (s : ServerCmd) :
    dispatch (.Server s) =
      "server start on " ++ s.addr ++ ":" ++ Nat.repr s.port ++
        " (verbosity: " ++ Nat.repr s.verbose ++ ")" := rfl

/-- C4: for every parsed `config get` the dispatcher prints the key and the
debug representation of the format variant; with `--format` omitted the
parsed default is `Plain` and the printed line contains `(format: Plain)`. -/
theorem C4_config_get_line :
    (∀ g : ConfigGet,
        dispatch (.Config { action := .Get g }) =
          "config get " ++ g.key ++ " (format: " ++ g.format.debugRepr ++ ")") ∧
    parseArgs ["config", "get", "core.editor"] =
      .ok (.Config { action := .Get { key := "core.editor", format := .Plain } }) ∧
    run ["config", "get", "core.editor"] =
      (["config get core.editor (format: Plain)"], 0) :=
  ⟨fun _ => rfl, by decide, by decide⟩

/-- C5: for every parsed `config set` the dispatcher prints the single line
with key, value and the boolean literal rendering of `global`. -/
theorem C5_config_set_line (s : ConfigSet) :
    dispatch (.Config { action := .Set s }) =
      "config set " ++ s.key ++ "=" ++ s.value ++
        " (global: " ++ (if s.global then "true" else "false") ++ ")" := rfl

/-- C6: `server` with no further arguments parses to the declared defaults
(port 8080, addr 127.0.0.1, verbosity 0) and dispatch prints them. -/
theorem C6_server_defaults :
    parseArgs ["server"] =
        .ok (.Server { port := 8080, addr := "127.0.0.1", verbose := 0 }) ∧
      run ["server"] = (["server start on 127.0.0.1:8080 (verbosity: 0)"], 0) := by
  decide

/-- C7 counterexample: with 256 occurrences of `-v` the parsed count is the
saturated `u8` bound 255, not the occurrence count 256, so the count and
the number of occurrences differ. -/
theorem C7_counterexample :
    parseArgs ("server" :: List.replicate 256 "-v") =
        .ok (.Server { port := 8080, addr := "127.0.0.1", verbose := 255 }) ∧
      (List.replicate 256 "-v").count "-v" = 256 ∧ (255 : Nat) ≠ 256 := by
  refine ⟨?_, by rw [List.count_replicate_self], by decide⟩
  have h := parseServerArgs_replicate 256 {} (by decide)
  simp only [parseArgs, if_neg (by decide : ¬("server" : String) = "config"), if_true]
  rw [h]
  rfl

/-- C7 amended: the `verbose` field equals the number of verbosity-flag
occurrences saturated at the `u8` bound 255; in particular
`server -vv --port 9090` yields verbosity 2 and port 9090. -/
theorem C7_verbose_saturates :
    (∀ (rest : List String) (s : ServerCmd),
        parseArgs ("server" :: rest) = .ok (.Server s) →
          s.verbose = min (countVerbose rest) 255) ∧
    parseArgs ["server", "-vv", "--port", "9090"] =
      .ok (.Server { port := 9090, addr := "127.0.0.1", verbose := 2 }) := by
  refine ⟨?_, by decide⟩
  intro rest s h
  obtain ⟨rest2, heq, hps⟩ := parseArgs_server_inv _ _ h
  obtain ⟨rfl⟩ : rest2 = rest := by injection heq with h1 h2; exact h2.symm ▸ rfl
  obtain ⟨hv, _⟩ := parseServerArgs_spec rest {} s (by decide) (by decide) hps
  simpa using hv

/-- C7 witness at the concrete invocation `server -vv --port 9090`. -/
theorem C7_verbose_saturates_witness :
    ({ port := 9090, addr := "127.0.0.1", verbose := 2 } : ServerCmd).verbose =
      min (countVerbose ["-vv", "--port", "9090"]) 255 :=
  C7_verbose_saturates.1 ["-vv", "--port", "9090"]
    { port := 9090, addr := "127.0.0.1", verbose := 2 } (by decide)

/-- C8: an out-of-range `--port` value is a parse failure (non-zero exit,
no dispatch line), and no `Server` command with a port beyond the `u16`
range is ever handed to the dispatcher. -/
theorem C8_port_range :
    run ["server", "--port", "99999"] = ([], 2) ∧
    ∀ (args : List String) (s : ServerCmd),
      parseArgs args = .ok (.Server s) → s.port ≤ 65535 := by
  refine ⟨by decide, ?_⟩
  intro args s h
  obtain ⟨rest, -, hps⟩ := parseArgs_server_inv _ _ h
  exact (parseServerArgs_spec rest {} s (by decide) (by decide) hps).2

/-- C8 witness: the bound instantiated at the default `server` parse. -/
theorem C8_port_range_witness :
    ({ port := 8080, addr := "127.0.0.1", verbose := 0 } : ServerCmd).port ≤ 65535 :=
  C8_port_range.2 ["server"]
    { port := 8080, addr := "127.0.0.1", verbose := 0 } (by decide)

/-- C9: every grammar violation terminates the process with a non-zero
exit code and no dispatch output; `badcommand` is such a violation; and
the `format` enumeration of `config get` accepts only `plain` and `json`. -/
theorem C9_grammar_violation :
    (∀ (args : List String) (e : ParseError),
        parseArgs args = .err e → run args = ([], 2)) ∧
    run ["badcommand"] = ([], 2) ∧
    (∀ (v : String) (f : OutputFormat),
        parseFormat v = some f → v = "plain" ∨ v = "json") := by
  refine ⟨?_, by decide, ?_⟩
  · intro args e h
    unfold run
    rw [h]
  · intro v f h
    unfold parseFormat at h
    by_cases h1 : v = "plain"
    · exact Or.inl h1
    · by_cases h2 : v = "json"
      · exact Or.inr h2
      · simp [h1, h2] at h

/-- C9 witness: the error path instantiated at `badcommand`, and the
format enumeration instantiated at `json`. -/
theorem C9_grammar_violation_witness :
    run ["badcommand"] = ([], 2) ∧ ("json" = "plain" ∨ ("json" : String) = "json") :=
  ⟨C9_grammar_violation.1 ["badcommand"] .unknownCommand (by decide),
    C9_grammar_violation.2.2 "json" .Json (by decide)⟩

/-- C10: the verbosity count is stored in a `u8`, so the dispatcher never
observes a value above 255; 256 occurrences of `-v` still parse to 255. -/
theorem C10_verbose_u8_bound :
    (∀ (args : List String) (s : ServerCmd),
        parseArgs args = .ok (.Server s) → s.verbose ≤ 255) ∧
    parseArgs ("server" :: List.replicate 256 "-v") =
      .ok (.Server { port := 8080, addr := "127.0.0.1", verbose := 255 }) := by
  constructor
  · intro args s h
    obtain ⟨rest, -, hps⟩ := parseArgs_server_inv _ _ h
    obtain ⟨hv, -⟩ := parseServerArgs_spec rest {} s (by decide) (by decide) hps
    omega
  · have h := parseServerArgs_replicate 256 {} (by decide)
    simp only [parseArgs, if_neg (by decide : ¬("server" : String) = "config"), if_true]
    rw [h]
    rfl

/-- C10 witness: the bound instantiated at the `server -vv --port 9090`
parse. -/
theorem C10_verbose_u8_bound_witness :
    ({ port := 9090, addr := "127.0.0.1", verbose := 2 } : ServerCmd).verbose ≤ 255 :=
  C10_verbose_u8_bound.1 ["server", "-vv", "--port", "9090"]
    { port := 9090, addr := "127.0.0.1", verbose := 2 } (by decide)
